import Mathlib

/-!
# ui-explorer: a verification development of the exploration core

Shallow embedding of the crawler core of the `ui-explorer` repository
(`src/core/Explorer.ts`, `src/core/types.ts`) and of the broken-links
validator (`BrokenLinksValidator`).  Pure functions of the TypeScript source
are translated into Lean functions; the stateful crawl loop is translated
into explicit state passing over a `CrawlerState`; browser/adapter calls
(the external collaborators of spec §6) are passed in as oracle functions.

Conventions used throughout:
* TypeScript optional fields (`x?: T`) become `Option T`.  A JavaScript
  falsy string (the empty string) in a position that the source gates with
  truthiness (`if (match.selector && ...)`) is modelled as `none`, i.e.
  `some s` stands for "present and truthy".
* `string | RegExp` pattern values are modelled by `Pattern`, carrying the
  compiled test predicate and the source text used in messages; regular
  expression semantics themselves are not re-implemented.
* Wall-clock fields (`timestamp`, `duration`, `Date.now()`) are omitted:
  they are not consulted by any control-flow decision in the source.
-/

namespace UIExplorer

/-- `IssueSeverity` from `types.ts`: `'critical' | 'serious' | 'moderate' | 'minor'`. -/
inductive IssueSeverity where
  | critical
  | serious
  | moderate
  | minor
deriving DecidableEq, Repr

/-- `IssueType` from `types.ts` (the variants used by the embedded components). -/
inductive IssueType where
  | accessibility
  | responsive
  | console
  | network
  | database
  | api
  | service
  | functional
deriving DecidableEq, Repr

/-- `Issue` from `types.ts`.  The free-form `details` record and the
wall-clock data inside it are omitted (never consulted by control flow). -/
structure Issue where
  type : IssueType
  severity : IssueSeverity
  rule : String
  description : String
  elements : Option (List String) := none
  helpUrl : Option String := none
  viewport : Option String := none
deriving DecidableEq, Repr

/-- Verification result `type` field: `'database' | 'api' | 'ui' | 'service'`. -/
inductive VerificationType where
  | database
  | api
  | ui
  | service
deriving DecidableEq, Repr

/-- `VerificationResult` from `types.ts`.  `expected`/`actual` are `unknown`
in the source and are kept as their string renderings. -/
structure VerificationResult where
  passed : Bool
  message : String
  type : VerificationType
  expected : Option String := none
  actual : Option String := none
deriving DecidableEq, Repr

/-- A compiled `string | RegExp` pattern: the test predicate plus the
source text (what `toString()` renders in messages). -/
structure Pattern where
  test : String → Bool
  source : String

/-- `ActionType` from `types.ts`. -/
inductive ActionType where
  | click
  | fill
  | select
  | check
  | uncheck
  | keypress
  | upload
  | hover
deriving DecidableEq, Repr

/-- `Action` from `types.ts` (the fields consulted by the embedded code). -/
structure Action where
  type : ActionType
  selector : String
  label : String
  value : Option String := none
  role : Option String := none
  destructive : Option Bool := none
deriving DecidableEq, Repr

/-- `DiscoveredAction extends Action` from `types.ts`. -/
structure DiscoveredAction extends Action where
  visible : Bool
  enabled : Bool
deriving DecidableEq, Repr

/-- `ActionMatcher` from `types.ts`: the four criteria read by
`findMatchingSchema` (`selector`, `text`, `role`, `context`).  The `custom`
predicate field exists in the type but is never read by
`findMatchingSchema`, so it is not part of the embedding. -/
structure ActionMatcher where
  selector : Option String := none
  text : Option Pattern := none
  role : Option String := none
  context : Option Pattern := none

/-- `SetupStep` from `types.ts`. -/
structure SetupStep where
  fill : Option String := none
  click : Option String := none
  select : Option String := none
  value : Option String := none
  waitFor : Option String := none
  delay : Option Nat := none
  optional : Bool := false

/-- `DatabaseExpectation` from `types.ts`; the `where`/`values` records are
kept as association lists of rendered values. -/
structure DatabaseExpectation where
  table : String
  change : String
  whereClause : List (String × String) := []
  count : Option Int := none

/-- `ServiceExpectation` from `types.ts`. -/
structure ServiceExpectation where
  adapter : String
  action : String
  expects : List (String × String) := []

/-- `ApiExpectation` from `types.ts` (only its presence is consulted:
`verifyExpectations` pushes a fixed placeholder result). -/
structure ApiExpectation where
  endpoint : String

/-- `UiExpectation` from `types.ts`.  The `text` and `title` fields exist in
the type but are never read by `verifyUiExpectations`, so they are not part
of the embedding. -/
structure UiExpectation where
  visible : Option (List String) := none
  hidden : Option (List String) := none
  url : Option Pattern := none

/-- `ActionExpectation` from `types.ts`. -/
structure ActionExpectation where
  database : Option DatabaseExpectation := none
  api : Option ApiExpectation := none
  ui : Option UiExpectation := none
  service : Option ServiceExpectation := none

/-- `ActionSchema` from `types.ts` (`match` is a Lean keyword, hence
`matcher`). -/
structure ActionSchema where
  matcher : ActionMatcher
  setup : Option (List SetupStep) := none
  expects : Option (List ActionExpectation) := none
  destructive : Bool := false

/-- JavaScript `String.prototype.includes`: substring containment. -/
def strIncludes (s sub : String) : Bool :=
  decide (sub.toList <:+: s.toList)

/-- The matcher test performed inside the loop of
`Explorer.findMatchingSchema` (`Explorer.ts` lines 506-529): each present
criterion must hold, otherwise the loop `continue`s to the next schema.
A string `text`/`context` is compiled to a regular expression first; that
compilation is carried by `Pattern.test`. -/
def matcherAccepts (m : ActionMatcher) (action : Action) (pageUrl : String) : Bool :=
  (match m.selector with
   | none => true
   | some sel => strIncludes action.selector sel) &&
  (match m.text with
   | none => true
   | some p => p.test action.label) &&
  (match m.role with
   | none => true
   | some r => action.role == some r) &&
  (match m.context with
   | none => true
   | some p => p.test pageUrl)

/-- The `for (const schema of this.config.actionSchemas)` loop of
`Explorer.findMatchingSchema`: return the first schema whose matcher
accepts the action, else `undefined`. -/
def findFirstSchema (action : Action) (pageUrl : String) :
    List ActionSchema → Option ActionSchema
  | [] => none
  | s :: rest =>
    if matcherAccepts s.matcher action pageUrl then some s
    else findFirstSchema action pageUrl rest

/-- `Explorer.findMatchingSchema` (`Explorer.ts` lines 503-533):
`undefined` when no `actionSchemas` are configured, else the first-wins
scan of the declaration-ordered list. -/
def findMatchingSchema (schemas : Option (List ActionSchema)) (action : Action)
    (pageUrl : String) : Option ActionSchema :=
  match schemas with
  | none => none
  | some list => findFirstSchema action pageUrl list

/-- `Explorer.executeSetup` (`Explorer.ts` lines 468-498).  The body of one
step (delay / waitFor / click / fill / select against the live page,
including `resolveTestData` substitution) is summarized by the oracle
`runStep`, which returns the page state after the attempt together with
`some e` when the step body threw `e` and `none` on success — exactly the
granularity of the source's per-step `try`/`catch`.  A failing step that is
not `optional` re-throws, which the embedding renders as `Except.error`. -/
def executeSetup {σ : Type} (runStep : σ → SetupStep → σ × Option String)
    (pg : σ) : List SetupStep → Except String σ
  | [] => .ok pg
  | step :: rest =>
    match runStep pg step with
    | (pg2, none) => executeSetup runStep pg2 rest
    | (pg2, some e) =>
      if step.optional then executeSetup runStep pg2 rest
      else .error e

/-!
## Expectation verification (`Explorer.verifyExpectations` and helpers)
-/

/-- Modelled from the spec: the adapter classes (`BaseAdapter.ts`,
`SupabaseAdapter.ts`) are not among the provided sources; per §4.4 an
adapter's `verify(action, expectation)` performs a read-only check and
returns a `VerificationResult`, and per §7(e) an adapter verify/capture
failure is downgraded to a failed `VerificationResult` (the run continues),
so `verify` is a total function here.  The argument record
(`Record<string, unknown>` in the source) is the database expectation or
the service `expects` map, tagged by `VerifyArg`. -/
inductive VerifyArg where
  | database (e : DatabaseExpectation)
  | service (e : List (String × String))

/-- Modelled from the spec: a registered backend adapter (§4.4), reduced to
the capability consulted by `verifyExpectations`. -/
structure Adapter where
  name : String
  verify : String → VerifyArg → VerificationResult

/-- The adapter registry lookup `this.adapters.get(name)`
(`AdapterRegistry` lives in the missing `BaseAdapter.ts`; §4.4 keys
adapters by name). -/
def AdapterRegistry : Type := String → Option Adapter

/-- The `ui.visible` per-selector check of `Explorer.verifyUiExpectations`
(`Explorer.ts` lines 601-621).  `isVisible sel = some b` models
`page.locator(sel).first().isVisible()` returning `b`; `none` models the
call throwing because the element cannot be resolved, which the source's
`catch` reports as "not found". -/
def checkVisibleSelector (isVisible : String → Option Bool) (sel : String) :
    VerificationResult :=
  match isVisible sel with
  | some b =>
    { passed := b
      message := if b then s!"Element {sel} is visible"
                 else s!"Element {sel} is not visible"
      type := .ui
      expected := some "visible"
      actual := some (if b then "visible" else "hidden") }
  | none =>
    { passed := false
      message := s!"Element {sel} not found"
      type := .ui }

/-- The `ui.hidden` per-selector check of `Explorer.verifyUiExpectations`
(`Explorer.ts` lines 625-647); the `catch` branch comments
"Element not found = hidden" and passes. -/
def checkHiddenSelector (isVisible : String → Option Bool) (sel : String) :
    VerificationResult :=
  match isVisible sel with
  | some b =>
    { passed := !b
      message := if b then s!"Element {sel} is still visible"
                 else s!"Element {sel} is hidden"
      type := .ui
      expected := some "hidden"
      actual := some (if b then "visible" else "hidden") }
  | none =>
    { passed := true
      message := s!"Element {sel} is not present"
      type := .ui }

/-- The `ui.url` check of `Explorer.verifyUiExpectations`
(`Explorer.ts` lines 650-661). -/
def checkUrlPattern (pageUrl : String) (p : Pattern) : VerificationResult :=
  let ok := p.test pageUrl
  let src := p.source
  { passed := ok
    message := if ok then s!"URL matches {src}"
               else s!"URL {pageUrl} does not match {src}"
    type := .ui
    expected := some src
    actual := some pageUrl }

/-- `Explorer.verifyUiExpectations` (`Explorer.ts` lines 594-664): one
result per `visible` selector, one per `hidden` selector, one for the `url`
pattern when present, in that order. -/
def verifyUiExpectations (isVisible : String → Option Bool) (pageUrl : String)
    (ui : UiExpectation) : List VerificationResult :=
  (match ui.visible with
   | none => []
   | some sels => sels.map (checkVisibleSelector isVisible)) ++
  (match ui.hidden with
   | none => []
   | some sels => sels.map (checkHiddenSelector isVisible)) ++
  (match ui.url with
   | none => []
   | some p => [checkUrlPattern pageUrl p])

/-- The body of one iteration of the `for (const expectation of expects)`
loop of `Explorer.verifyExpectations` (`Explorer.ts` lines 545-586): the
results contributed by a single `ActionExpectation`.  A `database`
expectation consults the adapter registered as `"supabase"`, a `service`
expectation consults the adapter it names; when the named adapter is not
registered the expectation contributes nothing.  An `api` expectation
pushes the fixed not-yet-implemented placeholder. -/
def verifyExpectation (reg : AdapterRegistry) (isVisible : String → Option Bool)
    (pageUrl : String) (e : ActionExpectation) : List VerificationResult :=
  (match e.database with
   | none => []
   | some db =>
     match reg "supabase" with
     | none => []
     | some a => [a.verify db.change (.database db)]) ++
  (match e.ui with
   | none => []
   | some ui => verifyUiExpectations isVisible pageUrl ui) ++
  (match e.api with
   | none => []
   | some _ =>
     [{ passed := true
        message := "API verification not yet implemented"
        type := .api }]) ++
  (match e.service with
   | none => []
   | some sv =>
     match reg sv.adapter with
     | none => []
     | some a => [a.verify sv.action (.service sv.expects)])

/-- `Explorer.verifyExpectations` (`Explorer.ts` lines 538-589): the loop
accumulates each expectation's results into one flat list.  (The untouched
`_preBackendState` parameter of the source is dropped.) -/
def verifyExpectations (reg : AdapterRegistry) (isVisible : String → Option Bool)
    (pageUrl : String) : List ActionExpectation → List VerificationResult
  | [] => []
  | e :: rest =>
    verifyExpectation reg isVisible pageUrl e ++
      verifyExpectations reg isVisible pageUrl rest

/-!
## Broken-links validator (`BrokenLinksValidator.ts`)
-/

/-- `BrokenLinksValidatorConfig` (the fields consulted by `checkLink` and
`resultToIssue`). -/
structure BrokenLinksValidatorConfig where
  enabled : Bool := true
  checkExternal : Bool := true
  checkInternal : Bool := true
  timeout : Nat := 5000
  followRedirects : Bool := false
deriving DecidableEq, Repr

/-- `LinkInfo` from `BrokenLinksValidator.ts`. -/
structure LinkInfo where
  href : String
  text : String
  selector : String
  isExternal : Bool
deriving DecidableEq, Repr

/-- Outcome of one `fetch` call, at the granularity the source's `catch`
distinguishes: a response with a status code; a rejection with
`name === 'AbortError'` (the timeout controller fired); an `Error` whose
message contains `'fetch'`; any other `Error e`; a non-`Error` thrown
value. -/
inductive FetchOutcome where
  | response (status : Nat)
  | abortError
  | fetchFailed (msg : String)
  | otherFailure (msg : String)
  | nonError
deriving DecidableEq, Repr

/-- The error-classification arm of `BrokenLinksValidator.checkLink`'s
`catch` (`BrokenLinksValidator.ts` lines 276-288). -/
def classifyFetchFailure : FetchOutcome → Option String
  | .response _ => none
  | .abortError => some "Timeout"
  | .fetchFailed _ => some "Connection failed"
  | .otherFailure msg => some msg
  | .nonError => some "Unknown error"

/-- `LinkCheckResult` from `BrokenLinksValidator.ts` (`redirectChain` and
the wall-clock `duration` omitted). -/
structure LinkCheckResult where
  link : LinkInfo
  status : Option Nat
  error : Option String
deriving DecidableEq, Repr

/-- `BrokenLinksValidator.checkLink` (`BrokenLinksValidator.ts` lines
225-296), with the two `fetch` calls (HEAD, and the GET retry issued when a
server answers 405 to HEAD) supplied as oracles.  When the GET retry throws,
`result.status` keeps the 405 already recorded and `result.error` is set,
exactly as in the source.  The `checkedUrls` memo cache is omitted: it only
replays the stored result for an identical `href`. -/
def checkLink (fetchHead fetchGet : String → FetchOutcome)
    (link : LinkInfo) : LinkCheckResult :=
  match fetchHead link.href with
  | .response s =>
    if s == 405 then
      match fetchGet link.href with
      | .response s2 => { link, status := some s2, error := none }
      | out => { link, status := some 405, error := classifyFetchFailure out }
    else { link, status := some s, error := none }
  | out => { link, status := none, error := classifyFetchFailure out }

/-- `BrokenLinksValidator.resultToIssue` (`BrokenLinksValidator.ts` lines
301-363).  JavaScript truthiness of `status` (`status && status >= 200…`)
makes a 0 status fall through to the unknown-status arm. -/
def resultToIssue (config : BrokenLinksValidatorConfig)
    (result : LinkCheckResult) (viewport : String) : Option Issue :=
  let okStatus : Bool :=
    match result.status with
    | some s => s != 0 && decide (200 ≤ s) && decide (s < 400)
    | none => false
  if okStatus then none
  else
    let t := result.link.text
    let ms := config.timeout
    let srd : IssueSeverity × String × String :=
      match result.error with
      | some e =>
        if e == "Timeout" then
          (.moderate, "link-timeout", s!"Link timed out after {ms}ms: \"{t}\"")
        else
          (.serious, "link-connection-error", s!"Link connection failed: \"{t}\" ({e})")
      | none =>
        match result.status with
        | some 404 =>
          (.serious, "broken-link-404", s!"Broken link (404 Not Found): \"{t}\"")
        | some s =>
          if 500 ≤ s then
            (.critical, "broken-link-server-error", s!"Link returns server error ({s}): \"{t}\"")
          else if s ≠ 0 ∧ 400 ≤ s then
            (.moderate, "broken-link-client-error", s!"Link returns error ({s}): \"{t}\"")
          else
            (.minor, "link-unknown-status", s!"Link returned unexpected status: \"{t}\"")
        | none =>
          (.minor, "link-unknown-status", s!"Link returned unexpected status: \"{t}\"")
    some { type := .network
           severity := srd.1
           rule := srd.2.1
           description := srd.2.2
           viewport := some viewport
           elements := some [result.link.selector]
           helpUrl := some "https://developer.mozilla.org/en-US/docs/Web/HTTP/Status" }

/-- The result-collection phase of `BrokenLinksValidator.validate`
(`BrokenLinksValidator.ts` lines 83-91) applied to the already-extracted,
already-filtered link list: every link is checked exactly once (the worker
pool partitions the queue) and each problem result becomes one issue.
The sequential order is one admissible pool schedule. -/
def brokenLinksIssues (fetchHead fetchGet : String → FetchOutcome)
    (config : BrokenLinksValidatorConfig) (viewport : String)
    (links : List LinkInfo) : List Issue :=
  (links.map (checkLink fetchHead fetchGet)).filterMap
    (fun r => resultToIssue config r viewport)

/-!
## The crawl scheduler (`Explorer.explore`, `exploreTask`, `exploreAction`)

The crawler's mutable fields (`visited`, `queue`, `graph`) become a
`CrawlerState` threaded through the loop.  Browser interaction is supplied
by an `Env` of oracles, one per suspension point of the source:
* `nav` — `page.goto(task.url)` plus `replayPath` (replay failures are
  swallowed inside `replayPath`, so only the `goto`/viewport calls can
  throw and abort the task's `try` block);
* `capture` — `stateManager.captureState` fingerprinting the reached
  observation into a state id (`StateManager.ts` is not among the provided
  sources; per spec §4.1 it is a pure function of the observation);
* `validate` — `runValidators`; `none` models a validator call throwing,
  which the task-level `catch` swallows after `visited.add` already ran;
* `discover` — `actionDiscovery.discoverActions` followed by
  `prioritizeActions` (`ActionDiscovery.ts` is not among the provided
  sources; the oracle returns the prioritized list, and the
  `maxActionsPerState` cap applied by `Explorer.ts` itself is kept);
* `act` — the body of `exploreAction`'s `try` up to and including
  `verifyExpectations`: either it throws, or it yields the post-action
  state id, the page URL and the verification results.
-/

/-- `ExplorationTask` from `types.ts`: `{url, path, depth, viewport}`.
The recorded path stores the discovered actions that were executed. -/
structure ExplorationTask where
  url : String
  path : List DiscoveredAction
  depth : Nat
  viewport : String
deriving DecidableEq, Repr

/-- `StateTransition` from `types.ts` (wall-clock `timestamp` omitted). -/
structure StateTransition where
  fromState : String
  toState : String
  action : DiscoveredAction
  viewport : String
  verifications : List VerificationResult
deriving DecidableEq, Repr

/-- `StateNode` from `types.ts`.  The stored `AppState` is represented by
its identity string: the scheduler consults nothing else of it. -/
structure StateNode where
  stateId : String
  issues : List Issue
  transitions : List StateTransition
deriving DecidableEq, Repr

/-- `StateGraph` from `types.ts`: an insertion-ordered map of state nodes
keyed by state id (JavaScript `Map` iteration order is insertion order),
plus the `startStates` id list. -/
structure StateGraph where
  states : List (String × StateNode)
  startStates : List String
deriving DecidableEq, Repr

def StateGraph.empty : StateGraph := { states := [], startStates := [] }

/-- The events the explorer emits that this embedding keeps
(`state:discovered`, `validation:complete`, `state:visited`,
`action:start`, `action:error`, `action:complete`), plus the
reset-and-replay attempt (`page.goto(task.url)` + `replayPath`) performed
after every action, which the source does not emit as an event. -/
inductive ExplorerEvent where
  | stateDiscovered (id : String)
  | validationComplete
  | stateVisited (id : String)
  | actionStart (selector : String)
  | actionError (selector : String) (err : String)
  | actionComplete (selector : String) (toState : String)
  | resetReplay (url : String)
deriving DecidableEq, Repr

/-- The Explorer's mutable crawl state: `visited` (a `Set<string>`, kept as
its insertion-ordered duplicate-free element list), the state graph, the
frontier `queue`, the emitted `events`, and — as ghost instrumentation for
stating scheduler properties only — the list of tasks passed to
`exploreTask`. -/
structure CrawlerState where
  visited : List String
  graph : StateGraph
  queue : List ExplorationTask
  events : List ExplorerEvent
  processed : List ExplorationTask
deriving DecidableEq, Repr

/-- Outcome of one candidate action's `try` block (see `Env.act`). -/
inductive ActionOutcome where
  | threw (err : String)
  | ok (toState : String) (pageUrl : String)
      (verifications : List VerificationResult)
deriving DecidableEq, Repr

/-- The browser/validator/adapter oracles (see the section comment). -/
structure Env where
  nav : ExplorationTask → Bool
  capture : ExplorationTask → String
  validate : ExplorationTask → Option (List Issue)
  discover : ExplorationTask → Option (List DiscoveredAction)
  act : ExplorationTask → DiscoveredAction → ActionOutcome

/-- JavaScript `x || d` for an optionally-present numeric config field:
`undefined` and the falsy `0` both fall back to the default. -/
def jsOrNat (v : Option Nat) (dflt : Nat) : Nat :=
  match v with
  | none => dflt
  | some 0 => dflt
  | some n => n

/-- The `exploration` sub-config of `ExplorerConfig` (`types.ts`). -/
structure ExplorationLimits where
  maxDepth : Option Nat := none
  maxStates : Option Nat := none
  maxActionsPerState : Option Nat := none
  viewports : Option (List String) := none

/-- The fields of `ExplorerConfig` consulted by the crawl loop. -/
structure Config where
  baseUrl : String
  startUrls : Option (List String) := none
  exploration : Option ExplorationLimits := none

/-- `this.config.exploration?.maxDepth || 10` (`Explorer.ts` line 163). -/
def effMaxDepth (cfg : Config) : Nat :=
  jsOrNat (cfg.exploration.bind (·.maxDepth)) 10

/-- `this.config.exploration?.maxStates || 500` (`Explorer.ts` line 164). -/
def effMaxStates (cfg : Config) : Nat :=
  jsOrNat (cfg.exploration.bind (·.maxStates)) 500

/-- `this.config.exploration?.maxActionsPerState || 50`
(`Explorer.ts` line 297). -/
def effMaxActions (cfg : Config) : Nat :=
  jsOrNat (cfg.exploration.bind (·.maxActionsPerState)) 50

/-- `this.config.exploration?.viewports || ['desktop']`
(`Explorer.ts` line 153; an empty configured array is truthy in JS and is
kept). -/
def effViewports (cfg : Config) : List String :=
  match cfg.exploration.bind (·.viewports) with
  | none => ["desktop"]
  | some vs => vs

/-- `Explorer.addStateToGraph` (`Explorer.ts` lines 716-729):
`states.set(id, node)` (replace if the key exists, else append), then push
the id onto `startStates` exactly when the map's size is 1. -/
def addStateToGraph (g : StateGraph) (id : String) (issues : List Issue) :
    StateGraph :=
  let node : StateNode := { stateId := id, issues := issues, transitions := [] }
  let states :=
    if g.states.any (fun p => p.1 == id) then
      g.states.map (fun p => if p.1 == id then (p.1, node) else p)
    else g.states ++ [(id, node)]
  { states := states
    startStates :=
      if states.length == 1 then g.startStates ++ [id] else g.startStates }

/-- `Explorer.addTransitionToGraph` (`Explorer.ts` lines 734-754): push the
transition onto the `fromState` node's list when that node exists, else do
nothing. -/
def addTransitionToGraph (g : StateGraph) (fromState toState : String)
    (action : DiscoveredAction) (viewport : String)
    (verifications : List VerificationResult) : StateGraph :=
  let tr : StateTransition :=
    { fromState, toState, action, viewport, verifications }
  { g with
    states := g.states.map (fun p =>
      if p.1 == fromState then
        (p.1, { p.2 with transitions := p.2.transitions ++ [tr] })
      else p) }

/-- `Explorer.exploreAction` (`Explorer.ts` lines 315-404).  On a throw
anywhere in the `try` block the source emits `action:error`, attempts the
reset-and-replay recovery (its own failure is swallowed) and returns —
recording nothing on the graph.  On success it records the transition,
emits `action:complete`, enqueues a frontier task when the post-state id is
not yet visited, and performs the same reset-and-replay. -/
def exploreAction (env : Env) (fromState : String) (action : DiscoveredAction)
    (task : ExplorationTask) (st : CrawlerState) : CrawlerState :=
  let st0 : CrawlerState :=
    { st with events := st.events ++ [.actionStart action.selector] }
  match env.act task action with
  | .threw err =>
    ({ st0 with events := st0.events ++
        [.actionError action.selector err, .resetReplay task.url] } : CrawlerState)
  | .ok toState pageUrl verifications =>
    let st1 : CrawlerState := { st0 with graph :=
      (addTransitionToGraph st0.graph fromState toState action task.viewport
        verifications) }
    let st2 : CrawlerState := { st1 with events :=
      st1.events ++ [.actionComplete action.selector toState] }
    let st3 : CrawlerState :=
      if toState ∈ st2.visited then st2
      else { st2 with queue := st2.queue ++
        [{ url := pageUrl, path := task.path ++ [action],
           depth := task.depth + 1, viewport := task.viewport }] }
    { st3 with events := st3.events ++ [.resetReplay task.url] }

/-- The action phase of `Explorer.exploreTask` (`Explorer.ts` lines
292-302): discover the prioritized candidate actions (`none` models the
discovery call throwing, swallowed by the task-level `catch`), cap them at
`maxActionsPerState`, and explore each in order. -/
def exploreTaskActions (cfg : Config) (env : Env) (sid : String)
    (task : ExplorationTask) (st : CrawlerState) : CrawlerState :=
  match env.discover task with
  | none => st
  | some actions =>
    (actions.take (effMaxActions cfg)).foldl
      (fun s a => exploreAction env sid a task s) st

/-- `Explorer.ts` lines 270-271: mark the fresh fingerprint visited and
emit `state:discovered`. -/
def visitMarked (sid : String) (st : CrawlerState) : CrawlerState :=
  { st with
    visited := st.visited ++ [sid]
    events := st.events ++ [.stateDiscovered sid] }

/-- `Explorer.ts` lines 284-290: record the validators' issues as the new
state node and emit the validation events and `state:visited`. -/
def visitValidated (sid : String) (issues : List Issue) (st : CrawlerState) :
    CrawlerState :=
  { st with
    graph := addStateToGraph st.graph sid issues
    events := st.events ++ [.validationComplete, .stateVisited sid] }

/-- The visit phase of `Explorer.exploreTask` (`Explorer.ts` lines
270-302), entered once the fingerprint `sid` is known to be new: mark it
visited, run the validators (`none` models a validator throwing, swallowed
by the task-level `catch` after the visited mark already happened), add the
state node with its issues, and explore the candidate actions. -/
def exploreTaskVisit (cfg : Config) (env : Env) (sid : String)
    (task : ExplorationTask) (st : CrawlerState) : CrawlerState :=
  match env.validate task with
  | none => visitMarked sid st
  | some issues =>
    exploreTaskActions cfg env sid task
      (visitValidated sid issues (visitMarked sid st))

/-- `Explorer.exploreTask` (`Explorer.ts` lines 239-310).  Navigation
failure aborts the task via the task-level `catch` (nothing recorded); a
task whose fingerprinted state id is already visited returns before any
effect; otherwise the visit phase runs. -/
def exploreTask (cfg : Config) (env : Env) (task : ExplorationTask)
    (st : CrawlerState) : CrawlerState :=
  if env.nav task then
    if env.capture task ∈ st.visited then st
    else exploreTaskVisit cfg env (env.capture task) task st
  else st

/-- One fuel-bounded run of the `while (this.queue.length > 0)` loop of
`Explorer.explore` (`Explorer.ts` lines 159-175): dequeue; `continue` past
tasks whose `depth` exceeds `maxDepth`; `break` once the visited-state
count has reached `maxStates`; otherwise explore the task.  `none` is
returned only when the fuel runs out with the queue still non-empty; the
termination theorem shows that `loopMeasure` fuel always suffices. -/
def exploreLoopF (cfg : Config) (env : Env) :
    Nat → CrawlerState → Option CrawlerState
  | 0, st => if st.queue.isEmpty then some st else none
  | fuel + 1, st =>
    match st.queue with
    | [] => some st
    | task :: rest =>
      if effMaxDepth cfg < task.depth then
        exploreLoopF cfg env fuel { st with queue := rest }
      else if effMaxStates cfg ≤ st.visited.length then
        some { st with queue := rest }
      else
        exploreLoopF cfg env fuel
          (exploreTask cfg env task
            { st with queue := rest, processed := st.processed ++ [task] })

/-- Fuel that suffices for `exploreLoopF` to reach a genuine exit of the
loop: every iteration dequeues one task, and a task can enqueue new work
(at most `maxActionsPerState` tasks) only by consuming one of the at most
`maxStates - visited` remaining visited-set slots. -/
def loopMeasure (cfg : Config) (st : CrawlerState) : Nat :=
  st.queue.length +
    (effMaxStates cfg - st.visited.length) * (effMaxActions cfg + 1)

/-- The initial frontier of `Explorer.explore` (`Explorer.ts` lines
151-156): one task per configured start URL per configured viewport. -/
def initQueue (cfg : Config) : List ExplorationTask :=
  let startUrls :=
    match cfg.startUrls with
    | none => [cfg.baseUrl]
    | some us => us
  (startUrls.map (fun url =>
    (effViewports cfg).map (fun vp =>
      ({ url, path := [], depth := 0, viewport := vp } : ExplorationTask)))).flatten

/-- The freshly constructed crawler: empty visited set, empty graph, the
initial frontier (`visited`, `graph`, `queue` as the `Explorer` constructor
and `Explorer.ts` lines 151-156 set them up). -/
def initState (cfg : Config) : CrawlerState :=
  { visited := [], graph := .empty, queue := initQueue cfg,
    events := [], processed := [] }

/-- The crawl of `Explorer.explore`: run the loop from the freshly
initialized crawler to the state in which the loop exits. -/
def explore (cfg : Config) (env : Env) : CrawlerState :=
  (exploreLoopF cfg env (loopMeasure cfg (initState cfg))
    (initState cfg)).getD (initState cfg)

/-!
## Derived notions used by the scheduler theorems
-/

/-- The key list of the state graph, in insertion order. -/
def graphKeys (g : StateGraph) : List String := g.states.map Prod.fst

/-- The graph bookkeeping invariant maintained by the crawl loop: the
`startStates` list is the first inserted key (if any), keys are unique, and
every key has been marked visited. -/
def graphInv (st : CrawlerState) : Prop :=
  st.graph.startStates = (graphKeys st.graph).take 1 ∧
  (graphKeys st.graph).Nodup ∧
  ∀ k ∈ graphKeys st.graph, k ∈ st.visited

/-!
## Concrete instances used to evaluate the model

Small closed environments exercising specific code paths; they are used by
the scenario theorems and the hypothesis-discharging witnesses below.
-/

/-- A clickable candidate whose `act` oracle will throw. -/
def c2ActBad : DiscoveredAction :=
  { type := .click, selector := "#bad", label := "Bad",
    visible := true, enabled := true }

/-- A clickable candidate whose `act` oracle succeeds. -/
def c2ActOk : DiscoveredAction :=
  { type := .click, selector := "#ok", label := "Ok",
    visible := true, enabled := true }

def c2Cfg : Config := { baseUrl := "http://x/" }

/-- Environment with one start state `s0` offering two candidate actions:
`#bad` throws `element detached` during execution, `#ok` leads to a second
state `s1` with no actions of its own. -/
def c2Env : Env :=
  { nav := fun _ => true
    capture := fun t => if t.path.isEmpty then "s0" else "s1"
    validate := fun _ => some []
    discover := fun t => if t.path.isEmpty then some [c2ActBad, c2ActOk] else some []
    act := fun _ a =>
      if a.selector == "#bad" then .threw "element detached"
      else .ok "s1" "http://x/next" [] }

/-- Environment whose every task fingerprints to the single id `s0`. -/
def c3Env : Env :=
  { nav := fun _ => true
    capture := fun _ => "s0"
    validate := fun _ => some []
    discover := fun _ => some []
    act := fun _ _ => .ok "s0" "http://x/" [] }

/-- A crawler state that has already visited `s0`. -/
def c3State : CrawlerState :=
  { visited := ["s0"], graph := .empty, queue := [], events := [],
    processed := [] }

def c3Task : ExplorationTask :=
  { url := "http://x/", path := [], depth := 0, viewport := "desktop" }

/-- Scenario links for the broken-links validator: three internal links. -/
def c8Link404 : LinkInfo :=
  { href := "http://site/a", text := "Archive", selector := "#la", isExternal := false }

def c8LinkTimeout : LinkInfo :=
  { href := "http://site/b", text := "Blog", selector := "#lb", isExternal := false }

def c8Link200 : LinkInfo :=
  { href := "http://site/c", text := "Contact", selector := "#lc", isExternal := false }

/-- Fetch oracle for the scenario: the first link answers 404, the second
aborts at the configured timeout, the third answers 200. -/
def c8Fetch : String → FetchOutcome := fun href =>
  if href == "http://site/a" then .response 404
  else if href == "http://site/b" then .abortError
  else .response 200

/-- A setup-step oracle over page states counted as `Nat`: every step
advances the page and reports a failure. -/
def c7RunStep : Nat → SetupStep → Nat × Option String :=
  fun n _ => (n + 1, some "element not found")

/-!
## Theorems
-/

theorem findFirstSchema_none_iff (action : Action) (pageUrl : String)
    (schemas : List ActionSchema) :
    findFirstSchema action pageUrl schemas = none ↔
      ∀ t ∈ schemas, matcherAccepts t.matcher action pageUrl = false := by
  induction schemas with
  | nil => simp [findFirstSchema]
  | cons a rest ih =>
    cases h : matcherAccepts a.matcher action pageUrl with
    | true =>
      have hfs : findFirstSchema action pageUrl (a :: rest) = some a := by
        simp [findFirstSchema, h]
      rw [hfs]
      constructor
      · intro hc; cases hc
      · intro hall
        have hs := hall a (List.mem_cons_self a rest)
        simp [h] at hs
    | false =>
      have hfs : findFirstSchema action pageUrl (a :: rest) =
          findFirstSchema action pageUrl rest := by
        simp [findFirstSchema, h]
      rw [hfs, ih]
      simp [List.forall_mem_cons, h]

theorem findFirstSchema_some_iff (action : Action) (pageUrl : String)
    (schemas : List ActionSchema) (s : ActionSchema) :
    findFirstSchema action pageUrl schemas = some s ↔
      ∃ pre post, schemas = pre ++ s :: post ∧
        matcherAccepts s.matcher action pageUrl = true ∧
        ∀ t ∈ pre, matcherAccepts t.matcher action pageUrl = false := by
  induction schemas with
  | nil =>
    simp only [findFirstSchema]
    constructor
    · intro hc; cases hc
    · rintro ⟨pre, post, heq, -, -⟩
      exact absurd heq (by simp)
  | cons a rest ih =>
    cases h : matcherAccepts a.matcher action pageUrl with
    | true =>
      have hfs : findFirstSchema action pageUrl (a :: rest) = some a := by
        simp [findFirstSchema, h]
      rw [hfs]
      constructor
      · intro hs
        injection hs with hs
        subst hs
        exact ⟨[], rest, rfl, h, by simp⟩
      · rintro ⟨pre, post, heq, hacc, hpre⟩
        cases pre with
        | nil =>
          rw [List.nil_append] at heq
          injection heq with h1 _
          rw [h1]
        | cons p pre' =>
          rw [List.cons_append] at heq
          injection heq with h1 _
          have hp := hpre p (List.mem_cons_self p pre')
          rw [← h1, h] at hp
          cases hp
    | false =>
      have hfs : findFirstSchema action pageUrl (a :: rest) =
          findFirstSchema action pageUrl rest := by
        simp [findFirstSchema, h]
      rw [hfs, ih]
      constructor
      · rintro ⟨pre, post, heq, hacc, hpre⟩
        refine ⟨a :: pre, post, by rw [heq, List.cons_append], hacc, ?_⟩
        intro t ht
        rcases List.mem_cons.mp ht with rfl | ht'
        · exact h
        · exact hpre t ht'
      · rintro ⟨pre, post, heq, hacc, hpre⟩
        cases pre with
        | nil =>
          rw [List.nil_append] at heq
          injection heq with h1 _
          rw [h1] at h
          rw [hacc] at h
          cases h
        | cons p pre' =>
          rw [List.cons_append] at heq
          injection heq with h1 h2
          refine ⟨pre', post, h2, hacc, ?_⟩
          intro t ht
          exact hpre t (List.mem_cons_of_mem p ht)

/-- C6: for every candidate action and configured `actionSchemas` list, the
schema returned by `findMatchingSchema` is exactly the first schema in
declaration order whose matcher criteria (selector substring, text pattern,
role, URL context) all hold for the action on the current page URL — every
earlier schema fails its matcher — and no schema is returned precisely when
none of them match. -/
theorem findMatchingSchema_first_wins (schemas : List ActionSchema)
    (action : Action) (pageUrl : String) :
    (∀ s : ActionSchema,
        findMatchingSchema (some schemas) action pageUrl = some s ↔
          ∃ pre post, schemas = pre ++ s :: post ∧
            matcherAccepts s.matcher action pageUrl = true ∧
            ∀ t ∈ pre, matcherAccepts t.matcher action pageUrl = false) ∧
    (findMatchingSchema (some schemas) action pageUrl = none ↔
        ∀ t ∈ schemas, matcherAccepts t.matcher action pageUrl = false) :=
  ⟨fun s => findFirstSchema_some_iff action pageUrl schemas s,
   findFirstSchema_none_iff action pageUrl schemas⟩

/-- C7: when a setup step's body fails, an `optional` step's failure is
swallowed and execution continues with the remaining steps from the page
state the failed attempt left behind, while a non-optional step's failure
aborts the whole setup run by propagating the error. -/
theorem executeSetup_optional_vs_required {σ : Type}
    (runStep : σ → SetupStep → σ × Option String) (pg pg2 : σ) (e : String)
    (step : SetupStep) (rest : List SetupStep)
    (hfail : runStep pg step = (pg2, some e)) :
    (step.optional = true →
        executeSetup runStep pg (step :: rest) = executeSetup runStep pg2 rest) ∧
    (step.optional = false →
        executeSetup runStep pg (step :: rest) = Except.error e) := by
  constructor <;> intro hopt <;> simp [executeSetup, hfail, hopt]

/-- Witness for `executeSetup_optional_vs_required`: an optional failing
step followed by a required failing step — the first failure is swallowed,
the second aborts with its error. -/
theorem executeSetup_optional_vs_required_witness :
    executeSetup c7RunStep 0 [{ optional := true }, { optional := false }] =
      Except.error "element not found" := by
  have h1 := (executeSetup_optional_vs_required c7RunStep 0 1 "element not found"
    { optional := true } [{ optional := false }] rfl).1 rfl
  have h2 := (executeSetup_optional_vs_required c7RunStep 1 2 "element not found"
    { optional := false } [] rfl).2 rfl
  rw [h1, h2]

/-- C1: `verifyExpectations` evaluates every expectation of a matched
schema independently: the result list splits as the concatenation of each
expectation's own results, so the outcome of any one expectation — in
particular an adapter `verify` that reports a failure, which (per the
adapter contract, §4.4/§7(e)) surfaces as a failed `VerificationResult`
rather than an exception — leaves every other expectation's results
unchanged, and the overall outcome is always the full list of individual
results, never a single aborted boolean. -/
theorem verifyExpectations_independent (reg : AdapterRegistry)
    (isVisible : String → Option Bool) (pageUrl : String)
    (es1 es2 : List ActionExpectation) (e : ActionExpectation) :
    verifyExpectations reg isVisible pageUrl (es1 ++ e :: es2) =
      verifyExpectations reg isVisible pageUrl es1 ++
        verifyExpectation reg isVisible pageUrl e ++
        verifyExpectations reg isVisible pageUrl es2 := by
  induction es1 with
  | nil => simp [verifyExpectations]
  | cons h t ih => simp [verifyExpectations, ih]

/-- C9: `verifyUiExpectations` yields exactly one result per listed
`visible` selector and one per listed `hidden` selector (plus one for the
`url` pattern when present), and an element that cannot be resolved on the
page passes a `hidden` expectation (absence counts as hidden) but fails a
`visible` expectation with an element-not-found message. -/
theorem verifyUiExpectations_per_selector (isVisible : String → Option Bool)
    (pageUrl : String) (ui : UiExpectation) :
    verifyUiExpectations isVisible pageUrl ui =
        (ui.visible.getD []).map (checkVisibleSelector isVisible) ++
          (ui.hidden.getD []).map (checkHiddenSelector isVisible) ++
          (ui.url.map (checkUrlPattern pageUrl)).toList ∧
    (verifyUiExpectations isVisible pageUrl ui).length =
        (ui.visible.getD []).length + (ui.hidden.getD []).length +
          (if ui.url.isSome then 1 else 0) ∧
    (∀ sel, isVisible sel = none →
        checkVisibleSelector isVisible sel =
            { passed := false, message := s!"Element {sel} not found",
              type := .ui } ∧
        checkHiddenSelector isVisible sel =
            { passed := true, message := s!"Element {sel} is not present",
              type := .ui }) := by
  refine ⟨?_, ?_, ?_⟩
  · cases hv : ui.visible <;> cases hh : ui.hidden <;> cases hu : ui.url <;>
      simp [verifyUiExpectations, hv, hh, hu]
  · cases hv : ui.visible <;> cases hh : ui.hidden <;> cases hu : ui.url <;>
      simp [verifyUiExpectations, hv, hh, hu] <;> omega
  · intro sel h
    constructor <;> simp [checkVisibleSelector, checkHiddenSelector, h]

/-- Witness for `verifyUiExpectations_per_selector`: on a page where no
selector resolves, one `visible` and one `hidden` expectation produce
exactly two results — a failure for the `visible` one and a pass for the
`hidden` one. -/
theorem verifyUiExpectations_per_selector_witness :
    (verifyUiExpectations (fun _ => none) "http://u"
        { visible := some ["#v"], hidden := some ["#h"] }).length = 2 ∧
    checkVisibleSelector (fun _ => none) "#v" =
        { passed := false, message := "Element #v not found", type := .ui } ∧
    checkHiddenSelector (fun _ => none) "#h" =
        { passed := true, message := "Element #h is not present", type := .ui } := by
  have h := verifyUiExpectations_per_selector (fun _ => none) "http://u"
    { visible := some ["#v"], hidden := some ["#h"] }
  exact ⟨by simpa using h.2.1, (h.2.2 "#v" rfl).1, (h.2.2 "#h" rfl).2⟩

/-- C8: given three internal links of which one answers 404, one aborts at
the configured 5000 ms timeout and one answers 200, the broken-links
validator yields exactly two issues — rule `broken-link-404` with severity
`serious` for the 404 link and rule `link-timeout` with severity `moderate`
for the timed-out link — and the 200 link contributes no issue. -/
theorem brokenLinks_three_link_scenario :
    (brokenLinksIssues c8Fetch c8Fetch { timeout := 5000 } "desktop"
        [c8Link404, c8LinkTimeout, c8Link200]).map
        (fun i => (i.rule, i.severity)) =
      [("broken-link-404", .serious), ("link-timeout", .moderate)] ∧
    resultToIssue { timeout := 5000 } (checkLink c8Fetch c8Fetch c8Link200)
        "desktop" = none := by
  constructor <;> rfl

/-- C2 at a failing input: a candidate action (`#bad`) whose execution
throws.  The crawl does not crash — it attempts the reset-and-replay
recovery and continues with the next candidate (`#ok`) — but, contrary to
the spec (§4.3.6/§7(b)) and the repository README's algorithm
(`graph.recordFailure` in the catch handler), no transition at all is
recorded for the failed action: the source state's transition list holds
only the successful action's transition, and the error survives only as an
emitted `action:error` event. -/
theorem failed_action_records_no_transition :
    ((explore c2Cfg c2Env).graph.states.map
        (fun p => (p.1, p.2.transitions.map (fun tr => tr.action.selector)))) =
      [("s0", ["#ok"]), ("s1", [])] ∧
    (explore c2Cfg c2Env).events.contains
        (.actionError "#bad" "element detached") = true ∧
    (explore c2Cfg c2Env).events.contains (.resetReplay "http://x/") = true ∧
    (explore c2Cfg c2Env).events.contains (.actionStart "#ok") = true := by
  refine ⟨rfl, rfl, rfl, rfl⟩

/-- C3: a dequeued task whose post-navigation fingerprint is already in the
visited set is discarded entirely — the crawler state is returned exactly
as it was, so no validator runs (no `validation:complete`/`state:visited`
event), no state node or issues are added to the graph, and no actions are
discovered, executed or enqueued for that task. -/
theorem exploreTask_discards_visited (cfg : Config) (env : Env)
    (task : ExplorationTask) (st : CrawlerState)
    (hnav : env.nav task = true)
    (hvis : env.capture task ∈ st.visited) :
    exploreTask cfg env task st = st := by
  simp [exploreTask, hnav, hvis]

/-- Witness for `exploreTask_discards_visited`: an environment whose every
task fingerprints to `s0`, run on a state that has already visited `s0`. -/
theorem exploreTask_discards_visited_witness :
    exploreTask c2Cfg c3Env c3Task c3State = c3State :=
  exploreTask_discards_visited c2Cfg c3Env c3Task c3State rfl (by decide)

theorem map_fst_if_update (f : String) (tr : StateTransition)
    (l : List (String × StateNode)) :
    (l.map (fun p => if p.1 == f then
        (p.1, { p.2 with transitions := p.2.transitions ++ [tr] }) else p)).map
        Prod.fst = l.map Prod.fst := by
  induction l with
  | nil => rfl
  | cons p ps ih =>
    simp only [List.map_cons, ih]
    by_cases hp : p.1 == f <;> simp [hp]

theorem addTransitionToGraph_graphKeys (g : StateGraph) (f t : String)
    (a : DiscoveredAction) (vp : String) (vs : List VerificationResult) :
    graphKeys (addTransitionToGraph g f t a vp vs) = graphKeys g :=
  map_fst_if_update f _ g.states

theorem addTransitionToGraph_startStates (g : StateGraph) (f t : String)
    (a : DiscoveredAction) (vp : String) (vs : List VerificationResult) :
    (addTransitionToGraph g f t a vp vs).startStates = g.startStates := rfl

theorem exploreAction_effect (env : Env) (sid : String)
    (action : DiscoveredAction) (task : ExplorationTask) (st : CrawlerState) :
    (exploreAction env sid action task st).visited = st.visited ∧
    (exploreAction env sid action task st).processed = st.processed ∧
    (exploreAction env sid action task st).queue.length ≤ st.queue.length + 1 ∧
    graphKeys (exploreAction env sid action task st).graph = graphKeys st.graph ∧
    (exploreAction env sid action task st).graph.startStates =
        st.graph.startStates := by
  unfold exploreAction
  cases hact : env.act task action with
  | threw err => simp
  | ok toState pageUrl verifications =>
    by_cases hv : toState ∈ st.visited <;>
      simp [hv, addTransitionToGraph_graphKeys, addTransitionToGraph_startStates]

theorem foldActions_effect (env : Env) (sid : String) (task : ExplorationTask)
    (acts : List DiscoveredAction) :
    ∀ st : CrawlerState,
      ((acts.foldl (fun s a => exploreAction env sid a task s) st).visited =
          st.visited) ∧
      ((acts.foldl (fun s a => exploreAction env sid a task s) st).processed =
          st.processed) ∧
      ((acts.foldl (fun s a => exploreAction env sid a task s) st).queue.length ≤
          st.queue.length + acts.length) ∧
      (graphKeys
          (acts.foldl (fun s a => exploreAction env sid a task s) st).graph =
          graphKeys st.graph) ∧
      ((acts.foldl
          (fun s a => exploreAction env sid a task s) st).graph.startStates =
          st.graph.startStates) := by
  induction acts with
  | nil => intro st; simp
  | cons a acts ih =>
    intro st
    obtain ⟨g1, g2, g3, g4, g5⟩ := exploreAction_effect env sid a task st
    obtain ⟨h1, h2, h3, h4, h5⟩ := ih (exploreAction env sid a task st)
    simp only [List.foldl_cons]
    refine ⟨h1.trans g1, h2.trans g2, ?_, h4.trans g4, h5.trans g5⟩
    simp only [List.length_cons]
    omega

theorem exploreTaskActions_effect (cfg : Config) (env : Env) (sid : String)
    (task : ExplorationTask) (st : CrawlerState) :
    (exploreTaskActions cfg env sid task st).visited = st.visited ∧
    (exploreTaskActions cfg env sid task st).processed = st.processed ∧
    (exploreTaskActions cfg env sid task st).queue.length ≤
        st.queue.length + effMaxActions cfg ∧
    graphKeys (exploreTaskActions cfg env sid task st).graph =
        graphKeys st.graph ∧
    (exploreTaskActions cfg env sid task st).graph.startStates =
        st.graph.startStates := by
  cases hdisc : env.discover task with
  | none =>
    have hstep : exploreTaskActions cfg env sid task st = st := by
      simp [exploreTaskActions, hdisc]
    rw [hstep]
    simp
  | some actions =>
    have hstep : exploreTaskActions cfg env sid task st =
        (actions.take (effMaxActions cfg)).foldl
          (fun s a => exploreAction env sid a task s) st := by
      simp [exploreTaskActions, hdisc]
    rw [hstep]
    obtain ⟨h1, h2, h3, h4, h5⟩ :=
      foldActions_effect env sid task (actions.take (effMaxActions cfg)) st
    refine ⟨h1, h2, ?_, h4, h5⟩
    have hlen := List.length_take_le (effMaxActions cfg) actions
    omega

theorem addStateToGraph_fresh (g : StateGraph) (id : String)
    (issues : List Issue) (h : id ∉ graphKeys g) :
    graphKeys (addStateToGraph g id issues) = graphKeys g ++ [id] ∧
    (addStateToGraph g id issues).startStates =
      (if g.states = [] then g.startStates ++ [id] else g.startStates) := by
  have hany : g.states.any (fun p => p.1 == id) = false := by
    rw [List.any_eq_false]
    intro p hp
    simp only [beq_iff_eq]
    intro hpe
    exact h (hpe ▸ List.mem_map_of_mem Prod.fst hp)
  constructor
  · simp [graphKeys, addStateToGraph, hany]
  · by_cases hnil : g.states = []
    · simp [addStateToGraph, hany, hnil]
    · have hlen : g.states.length ≠ 0 :=
        fun hz => hnil (List.length_eq_zero.mp hz)
      have hne : g.states.length + 1 ≠ 1 := by omega
      simp [addStateToGraph, hany, hnil, hne]

theorem graphInv_exploreTaskActions (cfg : Config) (env : Env) (sid : String)
    (task : ExplorationTask) (st : CrawlerState) (h : graphInv st) :
    graphInv (exploreTaskActions cfg env sid task st) := by
  obtain ⟨a1, -, -, a4, a5⟩ := exploreTaskActions_effect cfg env sid task st
  obtain ⟨h1, h2, h3⟩ := h
  refine ⟨?_, ?_, ?_⟩
  · rw [a5, a4]; exact h1
  · rw [a4]; exact h2
  · intro k hk
    rw [a4] at hk
    rw [a1]
    exact h3 k hk

theorem graphInv_visitValidated (sid : String) (issues : List Issue)
    (st : CrawlerState) (hnew : sid ∉ st.visited) (h : graphInv st) :
    graphInv (visitValidated sid issues (visitMarked sid st)) := by
  obtain ⟨h1, h2, h3⟩ := h
  have hfresh : sid ∉ graphKeys st.graph := fun hk => hnew (h3 sid hk)
  obtain ⟨hk1, hk2⟩ := addStateToGraph_fresh st.graph sid issues hfresh
  have hkeys : graphKeys (visitValidated sid issues (visitMarked sid st)).graph =
      graphKeys st.graph ++ [sid] := hk1
  have hvis : (visitValidated sid issues (visitMarked sid st)).visited =
      st.visited ++ [sid] := rfl
  refine ⟨?_, ?_, ?_⟩
  · show (addStateToGraph st.graph sid issues).startStates = _
    rw [hk2, hkeys]
    by_cases hnil : st.graph.states = []
    · have hkn : graphKeys st.graph = [] := by simp [graphKeys, hnil]
      rw [if_pos hnil, hkn, h1, hkn]
      rfl
    · have hkn : graphKeys st.graph ≠ [] := by
        simp only [graphKeys, ne_eq, List.map_eq_nil_iff]
        exact hnil
      rw [if_neg hnil, h1,
        List.take_append_of_le_length (by
          have := List.length_pos.mpr hkn
          omega)]
  · rw [hkeys]
    simp only [List.nodup_append, List.nodup_cons, List.not_mem_nil,
      not_false_eq_true, List.nodup_nil, and_true, true_and]
    refine ⟨h2, ?_⟩
    intro k hk
    simp only [List.mem_singleton]
    intro hke
    exact hfresh (hke ▸ hk)
  · intro k hk
    rw [hkeys] at hk
    rw [hvis]
    rcases List.mem_append.mp hk with hold | hnewk
    · exact List.mem_append_left _ (h3 k hold)
    · exact List.mem_append_right _ hnewk

theorem graphInv_visitMarked (sid : String) (st : CrawlerState)
    (h : graphInv st) : graphInv (visitMarked sid st) := by
  obtain ⟨h1, h2, h3⟩ := h
  exact ⟨h1, h2, fun k hk => List.mem_append_left _ (h3 k hk)⟩

theorem exploreTaskVisit_effect (cfg : Config) (env : Env) (sid : String)
    (task : ExplorationTask) (st : CrawlerState) :
    (exploreTaskVisit cfg env sid task st).visited = st.visited ++ [sid] ∧
    (exploreTaskVisit cfg env sid task st).processed = st.processed ∧
    (exploreTaskVisit cfg env sid task st).queue.length ≤
        st.queue.length + effMaxActions cfg := by
  cases hval : env.validate task with
  | none =>
    have hstep : exploreTaskVisit cfg env sid task st = visitMarked sid st := by
      simp [exploreTaskVisit, hval]
    rw [hstep]
    exact ⟨rfl, rfl, by simp [visitMarked]⟩
  | some issues =>
    have hstep : exploreTaskVisit cfg env sid task st =
        exploreTaskActions cfg env sid task
          (visitValidated sid issues (visitMarked sid st)) := by
      simp [exploreTaskVisit, hval]
    rw [hstep]
    obtain ⟨a1, a2, a3, -, -⟩ := exploreTaskActions_effect cfg env sid task
      (visitValidated sid issues (visitMarked sid st))
    exact ⟨a1, a2, a3⟩

theorem exploreTaskVisit_graphInv (cfg : Config) (env : Env) (sid : String)
    (task : ExplorationTask) (st : CrawlerState) (hnew : sid ∉ st.visited)
    (h : graphInv st) : graphInv (exploreTaskVisit cfg env sid task st) := by
  cases hval : env.validate task with
  | none =>
    have hstep : exploreTaskVisit cfg env sid task st = visitMarked sid st := by
      simp [exploreTaskVisit, hval]
    rw [hstep]
    exact graphInv_visitMarked sid st h
  | some issues =>
    have hstep : exploreTaskVisit cfg env sid task st =
        exploreTaskActions cfg env sid task
          (visitValidated sid issues (visitMarked sid st)) := by
      simp [exploreTaskVisit, hval]
    rw [hstep]
    exact graphInv_exploreTaskActions cfg env sid task _
      (graphInv_visitValidated sid issues st hnew h)

theorem exploreTask_step (cfg : Config) (env : Env) (task : ExplorationTask)
    (st : CrawlerState) :
    exploreTask cfg env task st = st ∨
    ((exploreTask cfg env task st).visited.length = st.visited.length + 1 ∧
     (exploreTask cfg env task st).processed = st.processed ∧
     (exploreTask cfg env task st).queue.length ≤
         st.queue.length + effMaxActions cfg) := by
  unfold exploreTask
  cases hn : env.nav task with
  | false => exact .inl (by simp)
  | true =>
    by_cases hv : env.capture task ∈ st.visited
    · exact .inl (by simp [hv])
    · right
      rw [if_pos rfl, if_neg hv]
      obtain ⟨e1, e2, e3⟩ :=
        exploreTaskVisit_effect cfg env (env.capture task) task st
      refine ⟨?_, e2, e3⟩
      rw [e1]
      simp

theorem exploreTask_graphInvStep (cfg : Config) (env : Env)
    (task : ExplorationTask) (st : CrawlerState) (h : graphInv st) :
    graphInv (exploreTask cfg env task st) := by
  unfold exploreTask
  cases hn : env.nav task with
  | false => simpa using h
  | true =>
    by_cases hv : env.capture task ∈ st.visited
    · simpa [hv] using h
    · rw [if_pos rfl, if_neg hv]
      exact exploreTaskVisit_graphInv cfg env (env.capture task) task st hv h

/-- Master lemma for the crawl loop: `loopMeasure` fuel suffices for
`exploreLoopF` to reach a genuine loop exit, and along the way the visited
cap is respected, only depth-admissible tasks are handed to `exploreTask`,
and the graph bookkeeping invariant is preserved. -/
theorem exploreLoopF_spec (cfg : Config) (env : Env) :
    ∀ (fuel : Nat) (st : CrawlerState), loopMeasure cfg st ≤ fuel →
      ∃ final, exploreLoopF cfg env fuel st = some final ∧
        (final.queue = [] ∨ effMaxStates cfg ≤ final.visited.length) ∧
        (st.visited.length ≤ effMaxStates cfg →
          final.visited.length ≤ effMaxStates cfg) ∧
        (∀ t ∈ final.processed,
          t ∈ st.processed ∨ t.depth ≤ effMaxDepth cfg) ∧
        (graphInv st → graphInv final) := by
  intro fuel
  induction fuel with
  | zero =>
    intro st h
    have hq : st.queue = [] := by
      apply List.length_eq_zero.mp
      unfold loopMeasure at h
      omega
    refine ⟨st, ?_, .inl hq, fun hb => hb, fun t ht => .inl ht, id⟩
    simp [exploreLoopF, hq]
  | succ fuel ih =>
    intro st h
    cases hq : st.queue with
    | nil =>
      refine ⟨st, ?_, .inl hq, fun hb => hb, fun t ht => .inl ht, id⟩
      simp [exploreLoopF, hq]
    | cons task rest =>
      have hlen : st.queue.length = rest.length + 1 := by rw [hq]; rfl
      have hmst : loopMeasure cfg st = (rest.length + 1) +
          (effMaxStates cfg - st.visited.length) * (effMaxActions cfg + 1) := by
        unfold loopMeasure
        rw [hlen]
      by_cases hd : effMaxDepth cfg < task.depth
      · have hstep : exploreLoopF cfg env (fuel + 1) st =
            exploreLoopF cfg env fuel { st with queue := rest } := by
          simp [exploreLoopF, hq, hd]
        have hm : loopMeasure cfg { st with queue := rest } ≤ fuel := by
          have h2 : loopMeasure cfg { st with queue := rest } = rest.length +
              (effMaxStates cfg - st.visited.length) *
                (effMaxActions cfg + 1) := rfl
          rw [hmst] at h
          rw [h2]
          omega
        obtain ⟨final, hsome, hexit, hbound, hproc, hinv⟩ := ih _ hm
        exact ⟨final, hstep ▸ hsome, hexit, hbound, hproc, hinv⟩
      · by_cases hc : effMaxStates cfg ≤ st.visited.length
        · have hstep : exploreLoopF cfg env (fuel + 1) st =
              some { st with queue := rest } := by
            simp [exploreLoopF, hq, hd, hc]
          exact ⟨{ st with queue := rest }, hstep, .inr hc, fun hb => hb,
            fun t ht => .inl ht, id⟩
        · have hstep : exploreLoopF cfg env (fuel + 1) st =
              exploreLoopF cfg env fuel
                (exploreTask cfg env task
                  { st with queue := rest,
                            processed := st.processed ++ [task] }) := by
            simp [exploreLoopF, hq, hd, hc]
          have hvc : st.visited.length < effMaxStates cfg := Nat.lt_of_not_le hc
          have hexp : (effMaxStates cfg - st.visited.length) *
              (effMaxActions cfg + 1) =
              (effMaxStates cfg - (st.visited.length + 1)) *
                (effMaxActions cfg + 1) + (effMaxActions cfg + 1) := by
            have hsplit : effMaxStates cfg - st.visited.length =
                (effMaxStates cfg - (st.visited.length + 1)) + 1 := by omega
            rw [hsplit, Nat.add_mul, Nat.one_mul]
          rcases exploreTask_step cfg env task
              { st with queue := rest, processed := st.processed ++ [task] }
            with heq | ⟨s1, s2, s3⟩
          · have hm : loopMeasure cfg (exploreTask cfg env task
                { st with queue := rest,
                          processed := st.processed ++ [task] }) ≤ fuel := by
              rw [heq]
              have h2 : loopMeasure cfg
                  ({ st with queue := rest,
                             processed := st.processed ++ [task] } :
                    CrawlerState) = rest.length +
                  (effMaxStates cfg - st.visited.length) *
                    (effMaxActions cfg + 1) := rfl
              rw [hmst] at h
              rw [h2]
              omega
            obtain ⟨final, hsome, hexit, hbound, hproc, hinv⟩ := ih _ hm
            refine ⟨final, hstep ▸ hsome, hexit, ?_, ?_, ?_⟩
            · intro hb
              apply hbound
              rw [heq]
              exact hb
            · intro t ht
              rcases hproc t ht with hin | hdep
              · rw [heq] at hin
                rcases List.mem_append.mp hin with h1 | h2
                · exact .inl h1
                · have ht2 : t = task := by simpa using h2
                  subst ht2
                  exact .inr (Nat.not_lt.mp hd)
              · exact .inr hdep
            · intro hg
              apply hinv
              rw [heq]
              exact hg
          · have s1a : (exploreTask cfg env task
                { st with queue := rest,
                          processed := st.processed ++ [task] }).visited.length =
                st.visited.length + 1 := by simpa using s1
            have s3a : (exploreTask cfg env task
                { st with queue := rest,
                          processed := st.processed ++ [task] }).queue.length ≤
                rest.length + effMaxActions cfg := by simpa using s3
            have hm : loopMeasure cfg (exploreTask cfg env task
                { st with queue := rest,
                          processed := st.processed ++ [task] }) ≤ fuel := by
              have h4 : loopMeasure cfg (exploreTask cfg env task
                  { st with queue := rest,
                            processed := st.processed ++ [task] }) =
                  (exploreTask cfg env task
                    { st with queue := rest,
                              processed := st.processed ++ [task] }).queue.length +
                    (effMaxStates cfg - (exploreTask cfg env task
                      { st with queue := rest,
                                processed := st.processed ++ [task] }).visited.length) *
                      (effMaxActions cfg + 1) := rfl
              rw [h4, s1a]
              rw [hmst, hexp] at h
              omega
            obtain ⟨final, hsome, hexit, hbound, hproc, hinv⟩ := ih _ hm
            refine ⟨final, hstep ▸ hsome, hexit, ?_, ?_, ?_⟩
            · intro _
              apply hbound
              rw [s1a]
              omega
            · intro t ht
              rcases hproc t ht with hin | hdep
              · rw [s2] at hin
                rcases List.mem_append.mp hin with h1 | h2
                · exact .inl h1
                · have ht2 : t = task := by simpa using h2
                  subst ht2
                  exact .inr (Nat.not_lt.mp hd)
              · exact .inr hdep
            · intro hg
              exact hinv (exploreTask_graphInvStep cfg env task _ hg)

/-- C5: the crawl loop always terminates — `loopMeasure` fuel suffices for
`exploreLoopF` to return a final state rather than running out — and the
state in which it ends satisfies the exit condition: the frontier queue is
empty, or the visited-state count has reached the `maxStates` cap,
whichever was hit first (the loop takes no further exploration step once
either holds). -/
theorem exploreLoop_terminates (cfg : Config) (env : Env) (st : CrawlerState) :
    ∃ final, exploreLoopF cfg env (loopMeasure cfg st) st = some final ∧
      (final.queue = [] ∨ effMaxStates cfg ≤ final.visited.length) := by
  obtain ⟨final, hsome, hexit, -, -, -⟩ :=
    exploreLoopF_spec cfg env (loopMeasure cfg st) st le_rfl
  exact ⟨final, hsome, hexit⟩

/-- C4: a full crawl never lets the visited-state set exceed `maxStates`
(the set only ever grows, so the final bound also bounds every intermediate
state), and never hands a task whose depth exceeds `maxDepth` to
`exploreTask` — in particular with `maxDepth = 2` no task of depth 3 or
more is processed and with `maxStates = 10` the visited set never exceeds
10 entries. -/
theorem explore_enforces_caps (cfg : Config) (env : Env) :
    (explore cfg env).visited.length ≤ effMaxStates cfg ∧
    (explore cfg env).processed.all
        (fun t => decide (t.depth ≤ effMaxDepth cfg)) = true := by
  obtain ⟨final, hsome, -, hbound, hproc, -⟩ :=
    exploreLoopF_spec cfg env (loopMeasure cfg (initState cfg))
      (initState cfg) le_rfl
  have hex : explore cfg env = final := by
    unfold explore
    rw [hsome]
    rfl
  rw [hex]
  refine ⟨hbound (by simp [initState]), ?_⟩
  rw [List.all_eq_true]
  intro t ht
  rcases hproc t ht with hin | hdep
  · simp [initState] at hin
  · simpa using hdep

/-- C10: after a full crawl, the graph's `startStates` list is exactly the
first key ever inserted into the (append-only, duplicate-free) state map —
so it holds at most one entry, acquired when the first state was added, and
never grows afterwards regardless of how many start URLs or viewports were
configured. -/
theorem explore_startStates_single (cfg : Config) (env : Env) :
    (explore cfg env).graph.startStates =
        (graphKeys (explore cfg env).graph).take 1 ∧
    (explore cfg env).graph.startStates.length ≤ 1 := by
  obtain ⟨final, hsome, -, -, -, hinv⟩ :=
    exploreLoopF_spec cfg env (loopMeasure cfg (initState cfg))
      (initState cfg) le_rfl
  have hex : explore cfg env = final := by
    unfold explore
    rw [hsome]
    rfl
  have hgi : graphInv final := by
    apply hinv
    refine ⟨rfl, ?_, ?_⟩
    · simp [initState, graphKeys, StateGraph.empty]
    · intro k hk
      simp [initState, graphKeys, StateGraph.empty] at hk
  rw [hex]
  refine ⟨hgi.1, ?_⟩
  rw [hgi.1]
  have := List.length_take 1 (graphKeys final.graph)
  omega

end UIExplorer
